import Mathlib

/-!
# LoKaL job feed and bookmark list

A shallow embedding of the state logic of two React Native screens:

* `src/src/screens/JobsScreen.js` : the paginated job feed (`processJobData`,
  `loadJobs`, `handleRefresh`, the `onEndReached` handler and the mount effect);
* `src/src/screens/BookmarksScreen.js` : the bookmark list (`loadBookmarks` and the
  `keyExtractor` of the list);
* `src/src/screens/JobDetailScreen.js` : the bookmark button (`handleBookmarkPress`).

React state is modelled by explicit state passing.  An `async` function is cut at its
single `await`: the part before it (`loadJobsStart`) runs when the call is made, the
part after it (`loadJobsResume`) runs when the fetch settles.  A session adds the list
of fetches in flight, and a step function interprets user and network events.
-/

namespace LoKaL

/-! ## JavaScript values and records -/

/-- A JavaScript value, as far as the screens look at it.  `undefined` is also what
reading an absent field gives.  `ref` stands for an object or an array, known only by
its address: `===` on two of them compares the addresses, and every one is truthy.
Numbers are the integers (the payload is parsed JSON, which has no NaN). -/
inductive JsVal where
  | undefined
  | null
  | bool (b : Bool)
  | num (n : Int)
  | str (s : String)
  | ref (addr : Nat)
  deriving DecidableEq, Repr

namespace JsVal

/-- JavaScript truthiness: `undefined`, `null`, `false`, `0` and `""` are falsy. -/
def truthy : JsVal → Bool
  | undefined => false
  | null => false
  | bool b => b
  | num n => decide (n ≠ 0)
  | str s => decide (s ≠ "")
  | ref _ => true

/-- The operator `a === b`. -/
def strictEq (a b : JsVal) : Bool := decide (a = b)

/-- The operator `a || b`: the left operand when it is truthy, else the right one. -/
def or (a b : JsVal) : JsVal := if a.truthy then a else b

end JsVal

/-- A job record: a JavaScript object, as its own fields in insertion order. -/
abbrev Job := List (String × JsVal)

/-- The read `job.k`: the value of field `k`, or `undefined` when the field is absent. -/
def getField : Job → String → JsVal
  | [], _ => JsVal.undefined
  | (k1, v1) :: rest, k => if k1 = k then v1 else getField rest k

/-- The object `{...job, k: v}`: field `k` is overwritten in place when the record has
it, and added at the end otherwise; every other field is copied. -/
def setField : Job → String → JsVal → Job
  | [], k, v => [(k, v)]
  | (k1, v1) :: rest, k, v =>
    if k1 = k then (k, v) :: rest else (k1, v1) :: setField rest k v

/-- The method `Set.prototype.add` on a set of strings kept in insertion order. -/
def setAdd (ids : List String) (x : String) : List String :=
  if x ∈ ids then ids else ids ++ [x]

/-! ## JobsScreen: state -/

/-- The `useState` cells of `JobsScreen`.  Page numbers are natural numbers (they start
at 1 and only grow by 1, far below the range where a JavaScript number loses
precision). -/
structure State where
  jobs : List Job
  page : Nat
  loading : Bool
  refreshing : Bool
  error : Option String
  hasMore : Bool
  processedIds : List String
  deriving DecidableEq, Repr

/-- The initial values given to `useState`. -/
def State.init : State :=
  { jobs := [], page := 1, loading := false, refreshing := false, error := none,
    hasMore := true, processedIds := [] }

/-- A fetch in flight: the arguments of the `loadJobs` call that is waiting for it. -/
structure Request where
  pageNumber : Nat
  shouldRefresh : Bool
  deriving DecidableEq, Repr

/-- How `await fetchJobs(pageNumber)` settles: with a value (`none` stands for a falsy
value such as `null`, `some data` for an array of records) or by throwing. -/
inductive FetchResult where
  | resolved (data : Option (List Job))
  | rejected
  deriving DecidableEq, Repr

/-! ## JobsScreen: operations -/

/-- The `map` of `processJobData`, from the record at position `i` on.  `fresh i` is
what `generateUniqueId()` returns in the callback for position `i` (it reads the clock
and the random source, so it is an input here). -/
def processJobDataFrom (fresh : Nat → String) :
    Nat → List String → List Job → List Job × List String
  | _, processedIds, [] => ([], processedIds)
  | i, processedIds, job :: rest =>
    let uniqueId := fresh i
    let out := processJobDataFrom fresh (i + 1) (setAdd processedIds uniqueId) rest
    (setField job "uniqueId" (JsVal.str uniqueId) :: out.1, out.2)

/-- The function `processJobData`: every record gets a newly generated `uniqueId`, which
is also added to `processedIds`.  Returns the new records and the new `processedIds`. -/
def processJobData (fresh : Nat → String) (processedIds : List String)
    (jobData : List Job) : List Job × List String :=
  processJobDataFrom fresh 0 processedIds jobData

/-- The filter of the functional `setJobs` update: the new records whose `id` is not
`===` to the `id` of any record already in the list. -/
def newJobs (prevJobs processedData : List Job) : List Job :=
  processedData.filter fun newJob =>
    !prevJobs.any fun existingJob =>
      JsVal.strictEq (getField existingJob "id") (getField newJob "id")

/-- The message `loadJobs` stores when the fetch throws. -/
def loadError : String :=
  "Failed to load jobs. Please check your internet connection and try again."

/-- The function `loadJobs` up to its `await`.  The guard reads `loading` and `hasMore`
from the render `c` the closure was made in; the setters act on `s`. -/
def loadJobsStart (c s : State) (pageNumber : Nat) (shouldRefresh : Bool) :
    State × Option Request :=
  if c.loading || (!c.hasMore && !shouldRefresh) then (s, none)
  else ({ s with loading := true, error := none }, some ⟨pageNumber, shouldRefresh⟩)

/-- The branch of `loadJobs` for a non-empty page. -/
def loadJobsMerge (s : State) (req : Request) (fresh : Nat → String)
    (data : List Job) : State :=
  let processed := processJobData fresh s.processedIds data
  let s1 : State :=
    if req.shouldRefresh then
      { s with processedIds := [], jobs := processed.1 }
    else
      { s with processedIds := processed.2, jobs := s.jobs ++ newJobs s.jobs processed.1 }
  { s1 with page := req.pageNumber + 1, hasMore := decide (data.length ≥ 10) }

/-- The function `loadJobs` from its `await` on: the `try` body after the fetch, the
`catch` and the `finally`. -/
def loadJobsResume (s : State) (req : Request) (fresh : Nat → String) :
    FetchResult → State
  | FetchResult.resolved data =>
    let s1 : State :=
      match data with
      | some d => if d.length > 0 then loadJobsMerge s req fresh d
                  else { s with hasMore := false }
      | none => { s with hasMore := false }
    { s1 with loading := false, refreshing := false }
  | FetchResult.rejected =>
    { s with error := some loadError, loading := false, refreshing := false }

/-- A whole call `loadJobs(pageNumber, shouldRefresh)` with nothing happening during
the fetch, which settles with `r`. -/
def loadJobs (s : State) (pageNumber : Nat) (shouldRefresh : Bool)
    (fresh : Nat → String) (r : FetchResult) : State :=
  match loadJobsStart s s pageNumber shouldRefresh with
  | (s1, some req) => loadJobsResume s1 req fresh r
  | (s1, none) => s1

/-- The handler `handleRefresh`, up to the `await` of the `loadJobs(1, true)` it calls. -/
def handleRefreshStart (s : State) : State × Option Request :=
  loadJobsStart s { s with refreshing := true, hasMore := true, page := 1 } 1 true

/-- A whole `handleRefresh` with nothing happening during the fetch. -/
def handleRefresh (s : State) (fresh : Nat → String) (r : FetchResult) : State :=
  match handleRefreshStart s with
  | (s1, some req) => loadJobsResume s1 req fresh r
  | (s1, none) => s1

/-- The list handler `onEndReached`: `hasMore && loadJobs(page)`. -/
def onEndReached (s : State) : State × Option Request :=
  if s.hasMore then loadJobsStart s s s.page false else (s, none)

/-- The mount effect: `loadJobs()`, with the default arguments `1` and `false`. -/
def mount (s : State) : State × Option Request :=
  loadJobsStart s s 1 false

/-! ## JobsScreen: the session as a step function -/

/-- The screen state together with the fetches in flight, oldest first. -/
structure Session where
  st : State
  inflight : List Request
  deriving DecidableEq, Repr

/-- The session of a screen that has just been rendered for the first time. -/
def Session.init : Session := { st := State.init, inflight := [] }

/-- What can happen to a session. `deliver i fresh r`: the fetch at position `i` of
`inflight` settles with `r`, and `fresh` is what `generateUniqueId` returns then. -/
inductive Event where
  | mounted
  | endReached
  | refresh
  | deliver (i : Nat) (fresh : Nat → String) (r : FetchResult)

/-- Record the state and the fetch, if any, that a handler leaves behind. -/
def Session.after (σ : Session) (out : State × Option Request) : Session :=
  match out.2 with
  | some req => { st := out.1, inflight := σ.inflight ++ [req] }
  | none => { σ with st := out.1 }

/-- One event.  Each handler runs to its `await` in one go, and React has rendered
again before the next event, so a handler reads the state the last event left.
Delivering at a position where no fetch waits does nothing. -/
def step (σ : Session) : Event → Session
  | Event.mounted => σ.after (mount σ.st)
  | Event.endReached => σ.after (onEndReached σ.st)
  | Event.refresh => σ.after (handleRefreshStart σ.st)
  | Event.deliver i fresh r =>
    match σ.inflight.get? i with
    | some req =>
      { st := loadJobsResume σ.st req fresh r, inflight := σ.inflight.eraseIdx i }
    | none => σ

/-- A sequence of events, from the left. -/
def run (σ : Session) (es : List Event) : Session := es.foldl step σ

/-- The sessions the screen can be in: those some sequence of events leads to. -/
inductive Reachable : Session → Prop where
  | init : Reachable Session.init
  | step {σ : Session} (e : Event) : Reachable σ → Reachable (step σ e)

/-! ## Concrete data for the scenarios -/

/-- The raw record with the string identity `a<n>`, as the feed would send it. -/
def rawJob (n : Nat) : Job :=
  [("id", JsVal.str ("a" ++ toString n)), ("title", JsVal.str "Driver")]

/-- A generator of unique ids for the scenarios: the call at position `i` gives `u<i>`. -/
def freshU (i : Nat) : String := "u" ++ toString i

/-- A second generator, for a later fetch: the call at position `i` gives `v<i>`. -/
def freshV (i : Nat) : String := "v" ++ toString i

/-- A first page of ten records, `a1` to `a10`. -/
def pageOne : List Job := (List.range 10).map fun i => rawJob (i + 1)

/-- A second page of five records: `a1` again, then `a11` to `a14`. -/
def pageTwo : List Job := rawJob 1 :: (List.range 4).map fun i => rawJob (i + 11)

/-- A page that holds the same identity twice. -/
def pageTwice : List Job := [rawJob 7, rawJob 7]

/-- The state after the first page has been loaded into a new screen. -/
def afterPageOne : State :=
  loadJobs State.init 1 false freshU (FetchResult.resolved (some pageOne))

/-- Whether no two records of a list have the same `id`. -/
def UniqueIds (jobs : List Job) : Prop :=
  (jobs.map fun job => getField job "id").Nodup

instance (jobs : List Job) : Decidable (UniqueIds jobs) := by
  unfold UniqueIds; infer_instance

/-- The record of a page at position `p.1`, with the `uniqueId` generated for it. -/
def stamp (fresh : Nat → String) (p : Nat × Job) : Job :=
  setField p.2 "uniqueId" (JsVal.str (fresh p.1))

/-- The `keyExtractor` of the feed list: `item => item.uniqueId`. -/
def keyExtractor (item : Job) : JsVal := getField item "uniqueId"

/-- What the reachable sessions have in common: a fetch is in flight exactly while
`loading` is true, there is at most one, and `refreshing` is only true with `loading`. -/
def Session.Consistent (σ : Session) : Prop :=
  (σ.st.loading = true → σ.inflight.length = 1) ∧
  (σ.st.loading = false → σ.inflight = []) ∧
  (σ.st.refreshing = true → σ.st.loading = true)

/-- The events of the stale-response scenario: the first page arrives, the list asks
for page 2, the user pulls to refresh while that fetch is in flight, then the answer
to the page 2 fetch arrives. -/
def staleTrace : List Event :=
  [Event.mounted,
   Event.deliver 0 freshU (FetchResult.resolved (some pageOne)),
   Event.endReached,
   Event.refresh,
   Event.deliver 0 freshV (FetchResult.resolved (some pageTwo))]

/-! ## BookmarksScreen -/

namespace Bookmarks

/-- The `useState` cells of `BookmarksScreen`. -/
structure State where
  bookmarks : List Job
  loading : Bool
  error : Option String
  deriving DecidableEq, Repr

/-- The initial values given to `useState`. -/
def State.init : State := { bookmarks := [], loading := true, error := none }

/-- How `await getBookmarkedJobs()` settles: with the stored records or by throwing. -/
inductive StoreResult where
  | resolved (bookmarkedJobs : List Job)
  | rejected
  deriving DecidableEq, Repr

/-- The expression `job.id || job._id || job.uniqueId || Math.random()...substr(2, 9)`,
where `rnd` is the string the last operand gives (`||` groups to the left). -/
def resolveId (rnd : String) (job : Job) : JsVal :=
  (((getField job "id").or (getField job "_id")).or (getField job "uniqueId")).or
    (JsVal.str rnd)

/-- The callback of the `map` in `loadBookmarks`: `{...job, id: <resolveId>}`.  The pair
holds the position of the record and the record; `rnd i` is the random string drawn at
position `i`. -/
def processBookmark (rnd : Nat → String) (p : Nat × Job) : Job :=
  setField p.2 "id" (resolveId (rnd p.1) p.2)

/-- The message `loadBookmarks` stores when the read throws. -/
def loadError : String := "Failed to load bookmarks. Please try again."

/-- The function `loadBookmarks`, run to its end with the store settling with `r`. -/
def loadBookmarks (s : State) (rnd : Nat → String) : StoreResult → State
  | StoreResult.resolved bookmarkedJobs =>
    { s with error := none,
             bookmarks := bookmarkedJobs.enum.map (processBookmark rnd),
             loading := false }
  | StoreResult.rejected =>
    { s with error := some loadError, loading := false }

/-- The fallback order with "present" read as "truthy": the first of `id`, `_id` and
`uniqueId` that is truthy, else the synthesized string. -/
def firstTruthyId (rnd : String) (job : Job) : JsVal :=
  if (getField job "id").truthy then getField job "id"
  else if (getField job "_id").truthy then getField job "_id"
  else if (getField job "uniqueId").truthy then getField job "uniqueId"
  else JsVal.str rnd

/-- A stored record whose `id` is the number 0 and whose `_id` is `b1`. -/
def zeroIdJob : Job := [("id", JsVal.num 0), ("_id", JsVal.str "b1"), ("title", JsVal.str "Cook")]

/-- A stored record with only the secondary field `_id`. -/
def legacyJob : Job := [("_id", JsVal.str "b2"), ("title", JsVal.str "Guard")]

/-- A source of random strings for the scenarios. -/
def rndR (i : Nat) : String := "r" ++ toString i

/-- The `keyExtractor` of the bookmark list:
`item.id || item._id || item.uniqueId || Math.random()...substr(2, 9)`, where `rnd` is
the string the last operand gives when the list is rendered. -/
def keyExtractor (rnd : String) (item : Job) : JsVal :=
  (((getField item "id").or (getField item "_id")).or (getField item "uniqueId")).or
    (JsVal.str rnd)

/-- A record without its field `id`: every other field, in order. -/
def otherFields (job : Job) : Job := job.filter fun f => decide (f.1 ≠ "id")

/-- A stored record with none of the three identity fields. -/
def noIdJob : Job := [("title", JsVal.str "Cook"), ("company", JsVal.str "Inn")]

/-- The random strings when `Math.random()` returns 0 each time: `(0).toString(36)` is
`"0"`, and `"0".substr(2, 9)` is the empty string. -/
def rndZero (_ : Nat) : String := ""

end Bookmarks

/-! ## JobDetailScreen -/

namespace JobDetail

/-- The `useState` cell of `JobDetailScreen`. -/
structure State where
  bookmarked : JsVal
  deriving DecidableEq, Repr

/-- The initial value given to `useState`. -/
def State.init : State := { bookmarked := JsVal.bool false }

/-- How `await toggleBookmark(job)` settles: with a value or by throwing. -/
inductive ToggleResult where
  | resolved (newStatus : JsVal)
  | rejected
  deriving DecidableEq, Repr

/-- The handler `handleBookmarkPress` up to its `await`: it calls `toggleBookmark(job)`
(the record handed over is the second component) and sets nothing. -/
def handleBookmarkPressStart (job : Job) (s : State) : State × Job := (s, job)

/-- The handler `handleBookmarkPress` from its `await` on: `setBookmarked(newStatus)`
when the call returned; when it threw, the handler ends there (it has no `catch`). -/
def handleBookmarkPressResume (s : State) : ToggleResult → State
  | ToggleResult.resolved newStatus => { s with bookmarked := newStatus }
  | ToggleResult.rejected => s

/-- A whole `handleBookmarkPress` with nothing happening during the call. -/
def handleBookmarkPress (job : Job) (s : State) (r : ToggleResult) : State :=
  handleBookmarkPressResume (handleBookmarkPressStart job s).1 r

/-- The icon of the bookmark button: `bookmarked ? 'bookmark' : 'bookmark-outline'`. -/
def bookmarkIcon (s : State) : String :=
  if s.bookmarked.truthy then "bookmark" else "bookmark-outline"

end JobDetail

/-! ## Lemmas on records and on `processJobData` -/

theorem getField_setField_same (job : Job) (k : String) (v : JsVal) :
    getField (setField job k v) k = v := by
  induction job with
  | nil => simp [setField, getField]
  | cons hd tl ih =>
    obtain ⟨k1, v1⟩ := hd
    by_cases h : k1 = k
    · simp [setField, getField, h]
    · simp [setField, getField, h, ih]

theorem getField_setField_ne (job : Job) (k k2 : String) (v : JsVal) (hk : k ≠ k2) :
    getField (setField job k v) k2 = getField job k2 := by
  induction job with
  | nil => simp [setField, getField, hk]
  | cons hd tl ih =>
    obtain ⟨k1, v1⟩ := hd
    by_cases h : k1 = k
    · subst h
      simp [setField, getField, hk]
    · simp only [setField, h, if_false, getField, ih]

theorem processJobDataFrom_fst (fresh : Nat → String) (jobData : List Job) :
    ∀ (i : Nat) (ids : List String),
      (processJobDataFrom fresh i ids jobData).1 = (jobData.enumFrom i).map (stamp fresh) := by
  induction jobData with
  | nil => intro i ids; simp [processJobDataFrom]
  | cons hd tl ih =>
    intro i ids
    simp [processJobDataFrom, List.enumFrom, ih, stamp]

theorem processJobData_fst (fresh : Nat → String) (ids : List String) (jobData : List Job) :
    (processJobData fresh ids jobData).1 = jobData.enum.map (stamp fresh) := by
  simp [processJobData, processJobDataFrom_fst, List.enum]

theorem getField_id_stamp (fresh : Nat → String) (p : Nat × Job) :
    getField (stamp fresh p) "id" = getField p.2 "id" :=
  getField_setField_ne p.2 "uniqueId" "id" _ (by decide)

theorem newJobs_stamp (fresh : Nat → String) (prevJobs : List Job) (l : List (Nat × Job)) :
    newJobs prevJobs (l.map (stamp fresh)) =
      (l.filter fun p =>
        decide (getField p.2 "id" ∉ prevJobs.map fun job => getField job "id")).map
        (stamp fresh) := by
  unfold newJobs
  rw [List.filter_map]
  congr 1
  apply List.filter_congr
  intro p _
  simp only [Function.comp, getField_id_stamp, JsVal.strictEq]
  by_cases h : getField p.2 "id" ∈ prevJobs.map fun job => getField job "id"
  · simp only [h, not_true_eq_false, decide_False, Bool.not_eq_false_eq_eq_true, Bool.not_eq_true]
    simp only [List.mem_map] at h
    obtain ⟨e, he, hee⟩ := h
    simp only [Bool.not_eq_eq_eq_not, Bool.not_false, List.any_eq_true, decide_eq_true_eq]
    exact ⟨e, he, hee⟩
  · simp only [h, not_false_eq_true, decide_True, Bool.not_eq_eq_eq_not, Bool.not_true,
      List.any_eq_false, decide_eq_true_eq]
    intro e he hee
    exact h (List.mem_map.mpr ⟨e, he, hee⟩)

theorem loadJobs_of_guard (s : State) (pageNumber : Nat) (shouldRefresh : Bool)
    (fresh : Nat → String) (r : FetchResult)
    (hguard : s.loading = false ∧ (s.hasMore = true ∨ shouldRefresh = true)) :
    loadJobs s pageNumber shouldRefresh fresh r =
      loadJobsResume { s with loading := true, error := none } ⟨pageNumber, shouldRefresh⟩
        fresh r := by
  obtain ⟨hl, hm⟩ := hguard
  have hg : ¬ (s.loading || (!s.hasMore && !shouldRefresh)) = true := by
    rcases hm with hm | hm <;> simp [hl, hm]
  unfold loadJobs loadJobsStart
  rw [if_neg hg]

theorem handleRefresh_of_idle (s : State) (fresh : Nat → String) (r : FetchResult)
    (hidle : s.loading = false) :
    handleRefresh s fresh r =
      loadJobsResume
        { s with refreshing := true, hasMore := true, page := 1, loading := true,
                 error := none } ⟨1, true⟩ fresh r := by
  have hg : ¬ (s.loading || (!s.hasMore && !true)) = true := by simp [hidle]
  unfold handleRefresh handleRefreshStart loadJobsStart
  rw [if_neg hg]

theorem loadJobs_resolved (s : State) (pageNumber : Nat) (shouldRefresh : Bool)
    (fresh : Nat → String) (data : List Job)
    (hguard : s.loading = false ∧ (s.hasMore = true ∨ shouldRefresh = true))
    (hne : data ≠ []) :
    loadJobs s pageNumber shouldRefresh fresh (FetchResult.resolved (some data)) =
      { loadJobsMerge { s with loading := true, error := none } ⟨pageNumber, shouldRefresh⟩
          fresh data with loading := false, refreshing := false } := by
  have hlen : data.length > 0 := List.length_pos.mpr hne
  rw [loadJobs_of_guard s pageNumber shouldRefresh fresh _ hguard]
  simp [loadJobsResume, hlen]

/-! ## Theorems on the feed -/

/-- C1 (the code departs from it): on a new screen the mount effect calls `loadJobs()`,
and when that fetch returns a page holding the identity `a7` twice, both records are in
`jobs` afterwards: the list has two records with the same `id`. -/
theorem C1_page_with_repeated_id_breaks_uniqueness :
    ((run Session.init
        [Event.mounted,
         Event.deliver 0 freshU (FetchResult.resolved (some pageTwice))]).st.jobs.map
      fun job => getField job "id") = [JsVal.str "a7", JsVal.str "a7"] ∧
    ¬ UniqueIds
      (run Session.init
        [Event.mounted,
         Event.deliver 0 freshU (FetchResult.resolved (some pageTwice))]).st.jobs := by
  decide

/-- C2: a `loadJobs(pageNumber, false)` call that passes the guard and fetches a
non-empty page leaves in `jobs` the old list followed by the records of the page, in
received order and each with its new `uniqueId`, whose `id` is not the `id` of any
record of the old list. -/
theorem C2_loadMore_appends_unseen_records (s : State) (pageNumber : Nat)
    (fresh : Nat → String) (data : List Job)
    (hguard : s.loading = false ∧ s.hasMore = true) (hne : data ≠ []) :
    (loadJobs s pageNumber false fresh (FetchResult.resolved (some data))).jobs =
      s.jobs ++
        (data.enum.filter fun p =>
          decide (getField p.2 "id" ∉ s.jobs.map fun job => getField job "id")).map
          (stamp fresh) := by
  rw [loadJobs_resolved s pageNumber false fresh data ⟨hguard.1, Or.inl hguard.2⟩ hne]
  simp [loadJobsMerge, processJobData_fst, newJobs_stamp]

/-- C2 at the scenario of the specification: ten records `a1..a10`, then a page with
`a1` again and `a11..a14`, give fourteen records. -/
theorem C2_loadMore_appends_unseen_records_witness :
    (afterPageOne.loading = false ∧ afterPageOne.hasMore = true) ∧ pageTwo ≠ [] ∧
    (loadJobs afterPageOne 2 false freshV (FetchResult.resolved (some pageTwo))).jobs =
      afterPageOne.jobs ++
        (pageTwo.enum.filter fun p =>
          decide (getField p.2 "id" ∉ afterPageOne.jobs.map fun job => getField job "id")).map
          (stamp freshV) ∧
    afterPageOne.jobs.length = 10 ∧
    (loadJobs afterPageOne 2 false freshV (FetchResult.resolved (some pageTwo))).jobs.length
      = 14 :=
  ⟨by decide, by decide,
   C2_loadMore_appends_unseen_records afterPageOne 2 freshV pageTwo (by decide) (by decide),
   by decide, by decide⟩

/-- C3: when the fetch of a `loadJobs(pageNumber, false)` call succeeds, with any page
(a falsy value, an empty array or a non-empty one), the list `jobs` from before is an
initial segment of `jobs` afterwards; this holds for the part after the `await` run on
any state, and for the whole call. -/
theorem C3_loadMore_keeps_old_jobs_in_front (s : State) (pageNumber : Nat)
    (fresh : Nat → String) (data : Option (List Job)) :
    s.jobs <+: (loadJobsResume s ⟨pageNumber, false⟩ fresh (FetchResult.resolved data)).jobs ∧
    s.jobs <+: (loadJobs s pageNumber false fresh (FetchResult.resolved data)).jobs := by
  have hres : ∀ t : State,
      t.jobs <+: (loadJobsResume t ⟨pageNumber, false⟩ fresh (FetchResult.resolved data)).jobs := by
    intro t
    rcases data with _ | d
    · simp [loadJobsResume]
    · by_cases hlen : d.length > 0
      · simp [loadJobsResume, hlen, loadJobsMerge]
      · simp [loadJobsResume, hlen]
  refine ⟨hres s, ?_⟩
  unfold loadJobs loadJobsStart
  by_cases hg : (s.loading || (!s.hasMore && !false)) = true
  · rw [if_pos hg]
  · rw [if_neg hg]
    exact hres { s with loading := true, error := none }

/-- C4 (as stated, false): with ten records loaded and no load in progress, a refresh
whose fetch succeeds with the empty page leaves the ten old records in `jobs`, which
is not the (empty) list of the records of the returned page. -/
theorem C4_refresh_with_empty_page_keeps_old_jobs :
    afterPageOne.loading = false ∧
    (handleRefresh afterPageOne freshV (FetchResult.resolved (some []))).jobs
      ≠ (([] : List Job).enum.map (stamp freshV)) ∧
    (handleRefresh afterPageOne freshV (FetchResult.resolved (some []))).jobs
      = afterPageOne.jobs ∧
    afterPageOne.jobs.length = 10 := by
  decide

/-- C4 (amended): with no load in progress, whatever `hasMore` and `page` are, a
`handleRefresh` whose fetch succeeds with a non-empty page leaves in `jobs` exactly the
records of that page, in received order, each with its new `uniqueId`; and when those
new `uniqueId`s are not the `uniqueId` of an old record, no record of the new list is a
record of the old list. -/
theorem C4_refresh_replaces_jobs (s : State) (fresh : Nat → String) (data : List Job)
    (hidle : s.loading = false) (hne : data ≠ []) :
    (handleRefresh s fresh (FetchResult.resolved (some data))).jobs
      = data.enum.map (stamp fresh) ∧
    ((∀ i, i < data.length →
        JsVal.str (fresh i) ∉ s.jobs.map fun job => getField job "uniqueId") →
      ∀ r ∈ (handleRefresh s fresh (FetchResult.resolved (some data))).jobs, r ∉ s.jobs) := by
  have hlen : data.length > 0 := List.length_pos.mpr hne
  have hjobs : (handleRefresh s fresh (FetchResult.resolved (some data))).jobs
      = data.enum.map (stamp fresh) := by
    rw [handleRefresh_of_idle s fresh _ hidle]
    simp [loadJobsResume, hlen, loadJobsMerge, processJobData_fst]
  refine ⟨hjobs, ?_⟩
  intro hfresh r hr hold
  rw [hjobs, List.mem_map] at hr
  obtain ⟨p, hp, rfl⟩ := hr
  have hi : p.1 < data.length := by
    have h1 := List.fst_lt_of_mem_enum hp
    simpa using h1
  apply hfresh p.1 hi
  rw [List.mem_map]
  exact ⟨stamp fresh p, hold, getField_setField_same p.2 "uniqueId" _⟩

/-- C4 (amended) at ten loaded records and a refresh that returns the five records of
`pageTwo`. -/
theorem C4_refresh_replaces_jobs_witness :
    afterPageOne.loading = false ∧ pageTwo ≠ [] ∧
    (handleRefresh afterPageOne freshV (FetchResult.resolved (some pageTwo))).jobs
      = pageTwo.enum.map (stamp freshV) ∧
    ∀ r ∈ (handleRefresh afterPageOne freshV (FetchResult.resolved (some pageTwo))).jobs,
      r ∉ afterPageOne.jobs :=
  ⟨by decide, by decide,
   (C4_refresh_replaces_jobs afterPageOne freshV pageTwo (by decide) (by decide)).1,
   (C4_refresh_replaces_jobs afterPageOne freshV pageTwo (by decide) (by decide)).2
     (by decide)⟩

/-- C5 (as stated, false): with ten records loaded, `page` is 2 and no load is in
progress; the user pulls to refresh and the fetch throws.  Afterwards `jobs` still
holds the ten records, but `page` is 1 and not the 2 it was before the refresh. -/
theorem C5_failed_refresh_resets_page :
    afterPageOne.loading = false ∧ afterPageOne.page = 2 ∧
    (handleRefresh afterPageOne freshV FetchResult.rejected).page = 1 ∧
    (handleRefresh afterPageOne freshV FetchResult.rejected).jobs = afterPageOne.jobs ∧
    (run Session.init
      [Event.mounted, Event.deliver 0 freshU (FetchResult.resolved (some pageOne)),
       Event.refresh, Event.deliver 0 freshV FetchResult.rejected]).st.page = 1 := by
  decide

/-- C5 (amended): a `loadJobs(pageNumber, shouldRefresh)` call that passes the guard and
whose fetch throws leaves `jobs` as it was and `page` at the value it had when
`loadJobs` was called, stores the non-empty message `loadError` in `error`, and ends
with `loading` and `refreshing` both false.  A refresh through `handleRefresh`, which
sets `page` to 1 before it calls `loadJobs(1, true)`, likewise leaves `jobs` as it was,
sets `error` and ends with both flags false, and ends with `page = 1`, whatever `page`
was before the refresh. -/
theorem C5_failed_fetch_keeps_jobs (s : State) (pageNumber : Nat)
    (shouldRefresh : Bool) (fresh : Nat → String)
    (hguard : s.loading = false ∧ (s.hasMore = true ∨ shouldRefresh = true)) :
    (loadJobs s pageNumber shouldRefresh fresh FetchResult.rejected).jobs = s.jobs ∧
    (loadJobs s pageNumber shouldRefresh fresh FetchResult.rejected).page = s.page ∧
    (loadJobs s pageNumber shouldRefresh fresh FetchResult.rejected).error = some loadError ∧
    loadError ≠ "" ∧
    (loadJobs s pageNumber shouldRefresh fresh FetchResult.rejected).loading = false ∧
    (loadJobs s pageNumber shouldRefresh fresh FetchResult.rejected).refreshing = false ∧
    (handleRefresh s fresh FetchResult.rejected).jobs = s.jobs ∧
    (handleRefresh s fresh FetchResult.rejected).page = 1 ∧
    (handleRefresh s fresh FetchResult.rejected).error = some loadError ∧
    (handleRefresh s fresh FetchResult.rejected).loading = false ∧
    (handleRefresh s fresh FetchResult.rejected).refreshing = false := by
  have hne : loadError ≠ "" := by decide
  rw [loadJobs_of_guard s pageNumber shouldRefresh fresh _ hguard,
    handleRefresh_of_idle s fresh _ hguard.1]
  simp [loadJobsResume, hne]

/-- C5 (amended) at ten loaded records: a failed `loadJobs(2)` keeps the ten records
and `page = 2`; a failed refresh keeps the ten records and ends with `page = 1`. -/
theorem C5_failed_fetch_keeps_jobs_witness :
    (afterPageOne.loading = false ∧ (afterPageOne.hasMore = true ∨ false = true)) ∧
    (loadJobs afterPageOne 2 false freshV FetchResult.rejected).jobs = afterPageOne.jobs ∧
    (loadJobs afterPageOne 2 false freshV FetchResult.rejected).page = 2 ∧
    (loadJobs afterPageOne 2 false freshV FetchResult.rejected).error = some loadError ∧
    (handleRefresh afterPageOne freshV FetchResult.rejected).jobs = afterPageOne.jobs ∧
    (handleRefresh afterPageOne freshV FetchResult.rejected).page = 1 ∧
    (handleRefresh afterPageOne freshV FetchResult.rejected).refreshing = false :=
  have h := C5_failed_fetch_keeps_jobs afterPageOne 2 false freshV (by decide)
  ⟨by decide, h.1, h.2.1.trans (by decide), h.2.2.1, h.2.2.2.2.2.2.1, h.2.2.2.2.2.2.2.1,
   h.2.2.2.2.2.2.2.2.2.2⟩

/-- C6: a `loadJobs(pageNumber, shouldRefresh)` call that passes the guard and fetches
a non-empty page of `n` records ends with `hasMore` true exactly when `n ≥ 10` and with
`page = pageNumber + 1`; and a `loadJobs` call whose fetch throws, from any state,
leaves `page` as it was. -/
theorem C6_hasMore_and_page_after_success (s : State) (pageNumber : Nat)
    (shouldRefresh : Bool) (fresh : Nat → String) (data : List Job)
    (hguard : s.loading = false ∧ (s.hasMore = true ∨ shouldRefresh = true))
    (hne : data ≠ []) :
    ((loadJobs s pageNumber shouldRefresh fresh (FetchResult.resolved (some data))).hasMore
        = true ↔ data.length ≥ 10) ∧
    (loadJobs s pageNumber shouldRefresh fresh (FetchResult.resolved (some data))).page
      = pageNumber + 1 ∧
    ∀ (t : State) (pn : Nat) (sr : Bool),
      (loadJobs t pn sr fresh FetchResult.rejected).page = t.page := by
  rw [loadJobs_resolved s pageNumber shouldRefresh fresh data hguard hne]
  refine ⟨?_, ?_, ?_⟩
  · cases shouldRefresh <;> simp [loadJobsMerge]
  · cases shouldRefresh <;> simp [loadJobsMerge]
  · intro t pn sr
    unfold loadJobs loadJobsStart
    by_cases hg : (t.loading || (!t.hasMore && !sr)) = true
    · rw [if_pos hg]
    · rw [if_neg hg]
      rfl

/-- C6 at the scenario of the specification: the page of ten records gives
`hasMore = true` and `page = 2`, the page of five gives `hasMore = false` and
`page = 3`. -/
theorem C6_hasMore_and_page_after_success_witness :
    (State.init.loading = false ∧ (State.init.hasMore = true ∨ false = true)) ∧
    pageOne ≠ [] ∧ pageOne.length = 10 ∧
    (loadJobs State.init 1 false freshU (FetchResult.resolved (some pageOne))).hasMore
      = true ∧
    (loadJobs State.init 1 false freshU (FetchResult.resolved (some pageOne))).page = 2 ∧
    pageTwo.length = 5 ∧
    (loadJobs afterPageOne 2 false freshV (FetchResult.resolved (some pageTwo))).hasMore
      = false ∧
    (loadJobs afterPageOne 2 false freshV (FetchResult.resolved (some pageTwo))).page = 3 :=
  have h1 := C6_hasMore_and_page_after_success State.init 1 false freshU pageOne
    (by decide) (by decide)
  have h2 := C6_hasMore_and_page_after_success afterPageOne 2 false freshV pageTwo
    (by decide) (by decide)
  ⟨by decide, by decide, by decide, h1.1.mpr (by decide), h1.2.1, by decide,
   Bool.eq_false_iff.mpr (fun h => absurd (h2.1.mp h) (by decide)), h2.2.1⟩

/-! ## Theorems on the session -/

theorem loadJobsResume_flags (s : State) (req : Request) (fresh : Nat → String)
    (r : FetchResult) :
    (loadJobsResume s req fresh r).loading = false ∧
    (loadJobsResume s req fresh r).refreshing = false := by
  cases r <;> simp [loadJobsResume]

theorem consistent_init : Session.init.Consistent := by
  simp [Session.Consistent, Session.init, State.init]

theorem consistent_step (σ : Session) (e : Event) (h : σ.Consistent) :
    (step σ e).Consistent := by
  obtain ⟨⟨jobs, page, loading, refreshing, error, hasMore, ids⟩, inflight⟩ := σ
  obtain ⟨h1, h2, h3⟩ := h
  simp only at h1 h2 h3
  cases e with
  | mounted =>
    cases loading <;> cases hasMore <;>
      simp_all [step, Session.after, mount, loadJobsStart, Session.Consistent]
  | endReached =>
    cases loading <;> cases hasMore <;>
      simp_all [step, Session.after, onEndReached, loadJobsStart, Session.Consistent]
  | refresh =>
    cases loading <;> cases hasMore <;>
      simp_all [step, Session.after, handleRefreshStart, loadJobsStart, Session.Consistent]
  | deliver i fresh r =>
    simp only [step]
    cases hget : inflight.get? i with
    | none => exact ⟨h1, h2, h3⟩
    | some req =>
      have hfl := loadJobsResume_flags
        { jobs := jobs, page := page, loading := loading, refreshing := refreshing,
          error := error, hasMore := hasMore, processedIds := ids } req fresh r
      have hi : i < inflight.length := by
        rcases Nat.lt_or_ge i inflight.length with hlt | hge
        · exact hlt
        · rw [List.get?_eq_none.mpr hge] at hget
          cases hget
      cases loading with
      | false =>
        rw [h2 rfl] at hi
        simp at hi
      | true =>
        have hlen := h1 rfl
        have herase : (inflight.eraseIdx i).length = 0 := by
          rw [List.length_eraseIdx, if_pos hi, hlen]
        simp only [Session.Consistent, hfl.1, hfl.2, List.length_eq_zero.mp herase]
        simp

theorem consistent_of_reachable {σ : Session} (h : Reachable σ) : σ.Consistent := by
  induction h with
  | init => exact consistent_init
  | step e _ ih => exact consistent_step _ e ih

/-- C7: in every session the screen can reach, when `loading` or `refreshing` is true
or `hasMore` is false, a `loadJobs(pageNumber, false)` call returns at its guard: it
starts no fetch and leaves the whole state (`jobs`, `page`, `hasMore`, `loading`,
`refreshing`, `error`) as it was; so do the `onEndReached` handler and a whole
`loadJobs` call, whatever the fetch would have given. -/
theorem C7_loadMore_guard_is_noop (σ : Session) (hreach : Reachable σ)
    (hbusy : σ.st.loading = true ∨ σ.st.refreshing = true ∨ σ.st.hasMore = false) :
    (∀ pageNumber, loadJobsStart σ.st σ.st pageNumber false = (σ.st, none)) ∧
    onEndReached σ.st = (σ.st, none) ∧
    step σ Event.endReached = σ ∧
    ∀ pageNumber fresh r, loadJobs σ.st pageNumber false fresh r = σ.st := by
  have hcons := consistent_of_reachable hreach
  have hg : (σ.st.loading || (!σ.st.hasMore && !false)) = true := by
    rcases hbusy with h | h | h
    · simp [h]
    · simp [hcons.2.2 h]
    · simp [h]
  have hstart : ∀ pageNumber, loadJobsStart σ.st σ.st pageNumber false = (σ.st, none) := by
    intro pageNumber
    unfold loadJobsStart
    rw [if_pos hg]
  have hend : onEndReached σ.st = (σ.st, none) := by
    unfold onEndReached
    split
    · exact hstart _
    · rfl
  refine ⟨hstart, hend, ?_, ?_⟩
  · simp [step, hend, Session.after]
  · intro pageNumber fresh r
    simp [loadJobs, hstart]

/-- C7 at the session where the mount fetch is in flight and the user has pulled to
refresh: `loading` and `refreshing` are true, and a `loadJobs(page)` does nothing. -/
theorem C7_loadMore_guard_is_noop_witness :
    (step (step Session.init Event.mounted) Event.refresh).st.refreshing = true ∧
    onEndReached (step (step Session.init Event.mounted) Event.refresh).st
      = ((step (step Session.init Event.mounted) Event.refresh).st, none) ∧
    step (step (step Session.init Event.mounted) Event.refresh) Event.endReached
      = step (step Session.init Event.mounted) Event.refresh :=
  have h := C7_loadMore_guard_is_noop (step (step Session.init Event.mounted) Event.refresh)
    (Reachable.step Event.refresh (Reachable.step Event.mounted Reachable.init))
    (Or.inr (Or.inl (by decide)))
  ⟨by decide, h.2.1, h.2.2.1⟩

/-- C8 (as stated, false): after the first page, the list asks for page 2 and that
fetch is in flight; the user pulls to refresh, which starts no fetch; when the page 2
answer arrives afterwards its records are merged, so the final `jobs` holds the record
`a11` of that stale answer. -/
theorem C8_stale_loadMore_response_is_merged :
    (run Session.init (staleTrace.take 3)).inflight = [⟨2, false⟩] ∧
    (run Session.init (staleTrace.take 4)).inflight = [⟨2, false⟩] ∧
    (run Session.init (staleTrace.take 4)).st.refreshing = true ∧
    (run Session.init staleTrace).inflight = [] ∧
    stamp freshV (1, rawJob 11) ∈ (run Session.init staleTrace).st.jobs := by
  decide

theorem step_deliver_of_get (σ : Session) (i : Nat) (req : Request)
    (fresh : Nat → String) (r : FetchResult) (h : σ.inflight.get? i = some req) :
    step σ (Event.deliver i fresh r) =
      { st := loadJobsResume σ.st req fresh r, inflight := σ.inflight.eraseIdx i } := by
  simp only [step, h]

theorem reachable_run {σ : Session} (h : Reachable σ) (es : List Event) :
    Reachable (run σ es) := by
  induction es generalizing σ with
  | nil => exact h
  | cons e es ih => exact ih (Reachable.step e h)

/-- C8 (amended): in every session the screen can reach, when `handleRefresh` is
invoked while a `loadJobs(pageNumber, false)` fetch is in flight, it starts no fetch of
its own: it only sets `refreshing` and `hasMore` to true and `page` to 1.  When the
answer to the fetch in flight arrives afterwards with a non-empty page, its records
are merged as for any other `loadJobs(pageNumber, false)`: `jobs` becomes the old list
followed by the records of the page whose `id` is not the `id` of an old record. -/
theorem C8_refresh_during_loadMore_starts_no_fetch (σ : Session) (hreach : Reachable σ)
    (i pageNumber : Nat) (hfl : σ.inflight.get? i = some ⟨pageNumber, false⟩)
    (fresh : Nat → String) (data : List Job) (hne : data ≠ []) :
    step σ Event.refresh =
      { st := { σ.st with refreshing := true, hasMore := true, page := 1 },
        inflight := σ.inflight } ∧
    (step (step σ Event.refresh)
        (Event.deliver i fresh (FetchResult.resolved (some data)))).st.jobs =
      σ.st.jobs ++
        (data.enum.filter fun p =>
          decide (getField p.2 "id" ∉ σ.st.jobs.map fun job => getField job "id")).map
          (stamp fresh) := by
  have hcons := consistent_of_reachable hreach
  have hlen : data.length > 0 := List.length_pos.mpr hne
  have hload : σ.st.loading = true := by
    cases h : σ.st.loading with
    | true => rfl
    | false =>
      rw [hcons.2.1 h] at hfl
      simp at hfl
  have hg : (σ.st.loading || (!σ.st.hasMore && !true)) = true := by simp [hload]
  have hstart : handleRefreshStart σ.st =
      ({ σ.st with refreshing := true, hasMore := true, page := 1 }, none) := by
    unfold handleRefreshStart loadJobsStart
    rw [if_pos hg]
  have hstep : step σ Event.refresh =
      { st := { σ.st with refreshing := true, hasMore := true, page := 1 },
        inflight := σ.inflight } := by
    simp [step, hstart, Session.after]
  refine ⟨hstep, ?_⟩
  rw [hstep, step_deliver_of_get
    { st := { σ.st with refreshing := true, hasMore := true, page := 1 },
      inflight := σ.inflight } i ⟨pageNumber, false⟩ fresh _ hfl]
  simp [loadJobsResume, hlen, loadJobsMerge, processJobData_fst, newJobs_stamp]

/-- C8 (amended) at the scenario of `staleTrace`: the refresh during the page 2 fetch
starts no fetch, and the five records of the late answer, less the repeated `a1`, are
appended to the ten old ones. -/
theorem C8_refresh_during_loadMore_starts_no_fetch_witness :
    (run Session.init (staleTrace.take 3)).inflight.get? 0 = some ⟨2, false⟩ ∧
    pageTwo ≠ [] ∧
    (step (run Session.init (staleTrace.take 3)) Event.refresh).inflight
      = [⟨2, false⟩] ∧
    (step (step (run Session.init (staleTrace.take 3)) Event.refresh)
        (Event.deliver 0 freshV (FetchResult.resolved (some pageTwo)))).st.jobs.length
      = 14 :=
  have h := C8_refresh_during_loadMore_starts_no_fetch
    (run Session.init (staleTrace.take 3)) (reachable_run Reachable.init _) 0 2
    (by decide) freshV pageTwo (by decide)
  ⟨by decide, by decide, (congrArg Session.inflight h.1).trans (by decide),
   (congrArg List.length h.2).trans (by decide)⟩

/-! ## Theorems on identity -/

/-- C9 (as stated, false): the record with the identity field `id = "a7"` gets from
`processJobData` the generated `uniqueId` `"u0"`, which is the key the list renders
with, and not the value of its `id`. -/
theorem C9_uniqueId_differs_from_id :
    getField (rawJob 7) "id" = JsVal.str "a7" ∧
    (processJobData freshU [] [rawJob 7]).1.map keyExtractor = [JsVal.str "u0"] ∧
    (processJobData freshU [] [rawJob 7]).1.map keyExtractor
      ≠ [getField (rawJob 7) "id"] := by
  decide

/-- C9 (amended): `processJobData` gives every record of a page, whether it carries an
`id` or not, a newly generated `uniqueId`, which is the key the list renders with; the
record keeps its own `id` field, the one the merge compares on. -/
theorem C9_uniqueId_is_always_generated (fresh : Nat → String) (ids : List String)
    (jobData : List Job) :
    (processJobData fresh ids jobData).1.map keyExtractor
      = (List.range jobData.length).map (fun i => JsVal.str (fresh i)) ∧
    ((processJobData fresh ids jobData).1.map fun job => getField job "id")
      = jobData.map fun job => getField job "id" := by
  rw [processJobData_fst, List.map_map, List.map_map]
  constructor
  · rw [← List.enum_map_fst, List.map_map]
    apply List.map_congr_left
    intro p _
    exact getField_setField_same p.2 "uniqueId" _
  · conv_rhs => rw [← List.enum_map_snd jobData, List.map_map]
    apply List.map_congr_left
    intro p _
    exact getField_id_stamp fresh p

namespace Bookmarks

theorem resolveId_eq_firstTruthyId (rnd : String) (job : Job) :
    resolveId rnd job = firstTruthyId rnd job := by
  unfold resolveId firstTruthyId JsVal.or
  cases h1 : (getField job "id").truthy <;> cases h2 : (getField job "_id").truthy <;>
    cases h3 : (getField job "uniqueId").truthy <;> simp [h1, h2, h3]

/-- C10 (as stated, false): a stored record with `id: 0` and `_id: "b1"` has the field
`id`, yet `loadBookmarks` gives it the `id` `"b1"`, the value of `_id`, and not the
value `0` of its `id`. -/
theorem C10_zero_id_falls_back_to_secondary :
    getField zeroIdJob "id" = JsVal.num 0 ∧
    ((loadBookmarks State.init rndR (StoreResult.resolved [zeroIdJob])).bookmarks.map
      fun job => getField job "id") = [JsVal.str "b1"] := by
  decide

/-- C10 (amended): the `id` that `loadBookmarks` gives a stored record is the value of
`id` when that is truthy, otherwise the value of `_id` when that is truthy, otherwise
the value of `uniqueId` when that is truthy, and the synthesized string only when none
of the three is truthy; so a record whose `id` is absent (or falsy) and whose `_id` is
truthy gets exactly the value of `_id`. -/
theorem C10_id_is_first_truthy_field (s : State) (rnd : Nat → String)
    (stored : List Job) :
    ((loadBookmarks s rnd (StoreResult.resolved stored)).bookmarks.map
      fun job => getField job "id")
      = stored.enum.map (fun p => firstTruthyId (rnd p.1) p.2) ∧
    ∀ p ∈ stored.enum, (getField p.2 "id").truthy = false →
      (getField p.2 "_id").truthy = true →
      getField (processBookmark rnd p) "id" = getField p.2 "_id" := by
  constructor
  · simp only [loadBookmarks, List.map_map]
    apply List.map_congr_left
    intro p _
    simp only [Function.comp, processBookmark, getField_setField_same,
      resolveId_eq_firstTruthyId]
  · intro p _ h1 h2
    simp only [processBookmark, getField_setField_same, resolveId_eq_firstTruthyId,
      firstTruthyId, h1, h2]
    simp

/-- C10 (amended) at a stored record with only the secondary field `_id`: it gets the
value `"b2"` of that field. -/
theorem C10_id_is_first_truthy_field_witness :
    ((loadBookmarks State.init rndR (StoreResult.resolved [legacyJob])).bookmarks.map
      fun job => getField job "id") = [JsVal.str "b2"] ∧
    getField (processBookmark rndR (0, legacyJob)) "id" = JsVal.str "b2" :=
  have h := C10_id_is_first_truthy_field State.init rndR [legacyJob]
  ⟨h.1.trans (by decide), (h.2 (0, legacyJob) (by decide) (by decide) (by decide)).trans
    (by decide)⟩

end Bookmarks

/-! ## Theorems on the bookmark button and the bookmark list -/

namespace JobDetail

/-- C11: in `handleBookmarkPress`, nothing is set before `toggleBookmark` settles; when
`toggleBookmark` throws, `bookmarked` stays what it was, and so does the icon; when it
returns, `bookmarked` becomes exactly the value it returned. -/
theorem C11_bookmarked_follows_toggle_result (job : Job) (s : State) :
    (handleBookmarkPressStart job s).1 = s ∧
    (handleBookmarkPress job s ToggleResult.rejected).bookmarked = s.bookmarked ∧
    bookmarkIcon (handleBookmarkPress job s ToggleResult.rejected) = bookmarkIcon s ∧
    ∀ newStatus : JsVal,
      (handleBookmarkPress job s (ToggleResult.resolved newStatus)).bookmarked
        = newStatus := by
  refine ⟨rfl, rfl, rfl, ?_⟩
  intro newStatus
  rfl

end JobDetail

namespace Bookmarks

theorem otherFields_setField_id (job : Job) (v : JsVal) :
    otherFields (setField job "id" v) = otherFields job := by
  induction job with
  | nil => simp [setField, otherFields]
  | cons hd tl ih =>
    obtain ⟨k1, v1⟩ := hd
    by_cases h : k1 = "id"
    · subst h
      simp [setField, otherFields]
    · simp only [otherFields, ne_eq, decide_not] at ih
      simp [setField, otherFields, h, ih]

theorem firstTruthyId_truthy (rnd : String) (job : Job) (hrnd : rnd ≠ "") :
    (firstTruthyId rnd job).truthy = true := by
  unfold firstTruthyId
  cases h1 : (getField job "id").truthy
  · cases h2 : (getField job "_id").truthy
    · cases h3 : (getField job "uniqueId").truthy
      · simp [JsVal.truthy, hrnd]
      · simp [h3]
    · simp [h2]
  · simp [h1]

theorem keyExtractor_of_truthy_id (rnd : String) (item : Job)
    (h : (getField item "id").truthy = true) :
    keyExtractor rnd item = getField item "id" := by
  simp [keyExtractor, JsVal.or, h]

/-- C12 (the code departs from it): a stored record has none of `id`, `_id` and
`uniqueId`, and `Math.random()` returns 0 in `loadBookmarks`, so the synthesized
string is empty: `loadBookmarks` succeeds, the one listed record has the empty `id`,
and the key extractor, at render time, returns a newly synthesized key and not that
`id`. -/
theorem C12_empty_synthesized_id :
    (loadBookmarks State.init rndZero (StoreResult.resolved [noIdJob])).error = none ∧
    ((loadBookmarks State.init rndZero (StoreResult.resolved [noIdJob])).bookmarks.map
      fun job => getField job "id") = [JsVal.str ""] ∧
    ((loadBookmarks State.init rndZero (StoreResult.resolved [noIdJob])).bookmarks.map
      fun job => (getField job "id").truthy) = [false] ∧
    ((loadBookmarks State.init rndZero (StoreResult.resolved [noIdJob])).bookmarks.map
      (keyExtractor "k9")) = [JsVal.str "k9"] := by
  decide

/-- Away from that case the list is as wanted: when every string synthesized in
`loadBookmarks` is non-empty, `bookmarks` has the length and the order of the stored
list, each record keeps all its fields other than `id`, each record has a truthy `id`,
and the key extractor returns exactly that `id`, whatever it would synthesize. -/
theorem listed_bookmarks_of_nonempty_random (s : State) (rnd : Nat → String)
    (stored : List Job) (hrnd : ∀ i, i < stored.length → rnd i ≠ "") :
    (loadBookmarks s rnd (StoreResult.resolved stored)).bookmarks.length = stored.length ∧
    (loadBookmarks s rnd (StoreResult.resolved stored)).bookmarks.map otherFields
      = stored.map otherFields ∧
    ∀ item ∈ (loadBookmarks s rnd (StoreResult.resolved stored)).bookmarks,
      (getField item "id").truthy = true ∧ getField item "id" ≠ JsVal.str "" ∧
      ∀ rnd2 : String, keyExtractor rnd2 item = getField item "id" := by
  refine ⟨by simp [loadBookmarks], ?_, ?_⟩
  · simp only [loadBookmarks, List.map_map]
    conv_rhs => rw [← List.enum_map_snd stored, List.map_map]
    apply List.map_congr_left
    intro p _
    simp only [Function.comp, processBookmark, otherFields_setField_id]
  · intro item hitem
    simp only [loadBookmarks, List.mem_map] at hitem
    obtain ⟨p, hp, rfl⟩ := hitem
    have hi : p.1 < stored.length := by
      have h1 := List.fst_lt_of_mem_enum hp
      simpa using h1
    have hid : getField (processBookmark rnd p) "id" = firstTruthyId (rnd p.1) p.2 := by
      simp only [processBookmark, getField_setField_same, resolveId_eq_firstTruthyId]
    have htr : (getField (processBookmark rnd p) "id").truthy = true := by
      rw [hid]
      exact firstTruthyId_truthy _ _ (hrnd p.1 hi)
    refine ⟨htr, ?_, fun rnd2 => keyExtractor_of_truthy_id rnd2 _ htr⟩
    intro hempty
    rw [hempty] at htr
    simp [JsVal.truthy] at htr

end Bookmarks

end LoKaL
